import Mathlib

/-!
Verification development for the `DS_laboratorio6` repository: two small
Flask applications.  `pregunta1/app.py` looks up a Pokémon in the PokeAPI
and extracts types, moves and sprites; `pregunta2/app.py` classifies a URL
as a direct video file or platform media and downloads it.

The Python code is embedded shallowly: pure string functions become Lean
functions on `String` / `List Char`; the request handlers become pure
functions parameterised by an environment describing the outcomes of the
external effects (HTTP fetches, yt-dlp extraction, filesystem operations),
and they return the rendered view data together with a trace of the
filesystem/network events they perform, in order.
-/

namespace Lab6

/-! ## Character classes used by `sanitize_name` (pregunta2/app.py, lines 55-65)

The regex character class `[^A-Za-z0-9._-]` and the strip set `"._-"`. -/

/-- A character allowed by the regex class `[A-Za-z0-9._-]`. -/
def isAllowedChar (c : Char) : Bool :=
  ('A' ≤ c && c ≤ 'Z') || ('a' ≤ c && c ≤ 'z') || ('0' ≤ c && c ≤ '9') ||
    c = '.' || c = '_' || c = '-'

/-- A character stripped from both ends by `.strip("._-")`. -/
def isStripChar (c : Char) : Bool :=
  c = '.' || c = '_' || c = '-'

/-- Python `str.strip()` with no argument: remove leading and trailing
whitespace.  Embedded character-wise over the string's data. -/
def pyStrip (s : String) : String :=
  String.mk ((s.data.dropWhile Char.isWhitespace).rdropWhile Char.isWhitespace)

/-- Python `str.lower()`, embedded character-wise (ASCII case folding,
which covers every character the claims exercise). -/
def pyLower (s : String) : String :=
  String.mk (s.data.map Char.toLower)

/-- Python `str.startswith`, embedded over the strings' data. -/
def pyStartsWith (s pre : String) : Bool :=
  pre.data.isPrefixOf s.data

/-- One pass of `re.sub(r"[^A-Za-z0-9._-]+", "_", ·)` over the character
list.  The Boolean flag records whether the previous character was part of
a disallowed run, so that each maximal run of disallowed characters
contributes exactly one underscore. -/
def subRuns : List Char → Bool → List Char
  | [], _ => []
  | c :: rest, prevBad =>
    if isAllowedChar c then c :: subRuns rest false
    else if prevBad then subRuns rest true
    else '_' :: subRuns rest true

/-- `.strip("._-")`: drop the stripped characters from the front, then from
the back. -/
def stripSeps (l : List Char) : List Char :=
  (l.dropWhile isStripChar).rdropWhile isStripChar

/-- `sanitize_name` from pregunta2/app.py (lines 55-65):
`re.sub(r"[^A-Za-z0-9._-]+", "_", name).strip("._-")`, falling back to
`"archivo.mp4"` when the result is empty. -/
def sanitize_name (name : String) : String :=
  let safe := String.mk (stripSeps (subRuns name.data false))
  if safe = "" then "archivo.mp4" else safe

/-- The spec's wording of the substitution step: every maximal run of
characters outside the class is replaced by a single underscore.  Written
with an explicit `dropWhile` over each run; proved equal to `subRuns`
below. -/
def replaceRuns : List Char → List Char
  | [] => []
  | c :: rest =>
    if isAllowedChar c then c :: replaceRuns rest
    else '_' :: replaceRuns (rest.dropWhile (fun x => ! isAllowedChar x))
termination_by l => l.length
decreasing_by
  · simp only [List.length_cons]; omega
  · simp only [List.length_cons]
    have h : ∀ m : List Char,
        (m.dropWhile (fun x => ! isAllowedChar x)).length ≤ m.length := by
      intro m
      induction m with
      | nil => exact Nat.le_refl 0
      | cons y ys ih =>
        cases hy : isAllowedChar y with
        | true => simp [List.dropWhile_cons, hy]
        | false =>
          simp only [List.dropWhile_cons, hy, Bool.not_false, if_true,
            List.length_cons]
          exact Nat.le_succ_of_le ih
    have := h rest
    omega

/-- The sanitizer as the spec describes it: maximal runs replaced by one
underscore, ends stripped, fixed default on empty. -/
def sanitizeSpec (name : String) : String :=
  let safe := String.mk (stripSeps (replaceRuns name.data))
  if safe = "" then "archivo.mp4" else safe

/-! ## URL classifier (pregunta2/app.py, lines 50-53) -/

/-- `d in url` (Python substring containment), as a Boolean. -/
def strContains (hay needle : String) : Bool :=
  decide (needle.data <:+: hay.data)

/-- `is_platform_url` from pregunta2/app.py: substring test against the
four fixed platform domains. -/
def is_platform_url (url : String) : Bool :=
  ["instagram.com", "youtu.be", "youtube.com", "tiktok.com"].any
    (fun d => strContains url d)

/-- The classification outcome described by the spec's data model. -/
inductive ClassificationKind where
  | DirectFile
  | PlatformMedia
deriving DecidableEq, Repr

/-- `ClassificationResult.kind` derived from the raw input. -/
def classify (url : String) : ClassificationKind :=
  if is_platform_url url then .PlatformMedia else .DirectFile

/-! ## Path helpers used by the direct-download branch
(pregunta2/app.py, lines 178-179): `os.path.basename(urllib.parse.urlparse(url).path)`
and `os.path.splitext(name)[1]`.  The handler model below is parameterised
by the path component the URL parser returns; `basename` and the extension
split are embedded faithfully (POSIX semantics). -/

/-- `os.path.basename`: the part of the path after the last `/`. -/
def basenameStr (p : String) : String :=
  String.mk (p.data.foldl (fun acc c => if c = '/' then [] else acc ++ [c]) [])

/-- The extension component of `os.path.splitext` on a basename (no `/`):
the suffix starting at the last dot, provided some character strictly
before that dot is not itself a dot; otherwise empty. -/
def splitextExt (name : String) : String :=
  let l := name.data
  match l.reverse.findIdx? (fun c => c = '.') with
  | none => ""
  | some i =>
    let dotPos := l.length - 1 - i
    if (l.take dotPos).any (fun c => c ≠ '.') then String.mk (l.drop dotPos) else ""

/-- The fixed allow-list of video extensions (pregunta2/app.py, line 180). -/
def videoExts : List String := [".mp4", ".webm", ".ogg", ".mov"]

/-- `MIN_SIZE = 100 * 1024` (pregunta2/app.py, line 47). -/
def MIN_SIZE : Nat := 100 * 1024

/-! ## The pregunta2 request handler

External effects are described by an environment and the handler records
the network/filesystem events it performs, in order, as a trace. -/

/-- Observable network/filesystem events of one pregunta2 POST request.
`deleted` is included so the traces can express that the handler never
removes a file: the source contains no deletion call, so no branch of the
model emits it. -/
inductive Ev where
  | httpGet (url : String)
  | ytdlpCall (url : String)
  | wrote (name : String) (size : Nat)
  | renamed (src dst : String)
  | deleted (name : String)
deriving DecidableEq, Repr

/-- Environment of `download_with_ytdlp` (pregunta2/app.py, lines 67-129):
whether the `yt_dlp` module imported, the outcome of
`extract_info`/`prepare_filename` (including the ffmpeg-path adjustment of
lines 77-115) as either an exception message or the resulting basename
`orig`, whether `os.path.exists(src)` holds, and whether `os.replace`
succeeds. -/
structure YtdlpEnv where
  available : Bool
  extract : Except String String
  srcExists : Bool
  renameOk : Bool
deriving Repr

/-- `download_with_ytdlp` (pregunta2/app.py, lines 67-129): raises when
`yt_dlp is None` or extraction raises; otherwise sanitizes the produced
basename, renames when the sanitized name differs and the source file
exists, and falls back to the original name when the rename raises
`OSError`.  Returns the final basename together with the rename events. -/
def download_with_ytdlp (env : YtdlpEnv) : Except String (String × List Ev) :=
  if env.available = false then .error "yt-dlp no está disponible en el entorno."
  else
    match env.extract with
    | .error e => .error e
    | .ok orig =>
      let safe := sanitize_name orig
      if safe ≠ orig then
        if env.srcExists then
          if env.renameOk then .ok (safe, [.renamed orig safe])
          else .ok (orig, [])
        else .ok (orig, [])
      else .ok (orig, [])

/-- What one streamed `requests.get` returned: the declared `Content-Type`
header (absent headers give `none`) and the total number of body bytes the
chunk loop writes. -/
structure DirectResp where
  contentType : Option String
  bodySize : Nat
deriving Repr

/-- Environment of one pregunta2 POST request: the path component
`urllib.parse.urlparse(url).path` returns for the submitted URL, the
outcome of the direct `requests.get` (exception message or response), the
yt-dlp environment, `os.path.isfile`/`os.path.getsize` for the file the
platform branch checks after extraction, and the `OSError` message of the
direct write, if any. -/
structure Env where
  urlPath : String
  fetch : Except String DirectResp
  yt : YtdlpEnv
  postSize : String → Option Nat
  writeErr : Option String

/-- The rendered view data of pregunta2's `index`. -/
structure ViewResult where
  url : String
  msg : String
  saved : Option String
deriving DecidableEq, Repr

/-- The message used by both branches for an undersized download
(pregunta2/app.py, lines 158 and 200). -/
def invalidMsg : String :=
  "Descarga completada pero el archivo parece inválido o demasiado pequeño."

/-- The platform branch of `index` (pregunta2/app.py, lines 151-164). -/
def platformBranch (url : String) (env : Env) : ViewResult × List Ev :=
  match download_with_ytdlp env.yt with
  | .error e =>
    (⟨url, "No se pudo descargar con yt-dlp: " ++ e, none⟩, [.ytdlpCall url])
  | .ok (saved, evs) =>
    match env.postSize saved with
    | some n =>
      if MIN_SIZE ≤ n then
        (⟨url, "Descargado (yt-dlp): " ++ saved, some saved⟩, .ytdlpCall url :: evs)
      else (⟨url, invalidMsg, none⟩, .ytdlpCall url :: evs)
    | none => (⟨url, invalidMsg, none⟩, .ytdlpCall url :: evs)

/-- The name the direct branch saves under (pregunta2/app.py, lines
178-191): basename of the URL path, `video.mp4` when empty, `.mp4`
appended when there is no dot, then sanitized. -/
def directName (urlPath : String) : String :=
  let name0 := basenameStr urlPath
  let name1 := if name0 = "" then "video.mp4" else name0
  let name2 := if name1.data.contains '.' then name1 else name1 ++ ".mp4"
  sanitize_name name2

/-- The direct-download acceptance test (pregunta2/app.py, lines 175-182):
content-type lower-cased and compared against `video/`, or the lower-cased
extension of the URL path's basename against the allow-list. -/
def directAccept (contentType : Option String) (urlPath : String) : Bool :=
  let ct := pyLower (contentType.getD "")
  let ext := pyLower (splitextExt (basenameStr urlPath))
  pyStartsWith ct "video/" || videoExts.contains ext

/-- The direct branch of `index` (pregunta2/app.py, lines 166-205). -/
def directBranch (url : String) (env : Env) : ViewResult × List Ev :=
  match env.fetch with
  | .error e => (⟨url, "Error de red: " ++ e, none⟩, [.httpGet url])
  | .ok r =>
    let ct := pyLower (r.contentType.getD "")
    if directAccept r.contentType env.urlPath = false then
      (⟨url, "El URL no parece ser un archivo de video directo (Content-Type: "
          ++ ct ++ ").", none⟩, [.httpGet url])
    else
      let name := directName env.urlPath
      match env.writeErr with
      | some e => (⟨url, "Error al guardar: " ++ e, none⟩, [.httpGet url])
      | none =>
        if r.bodySize < MIN_SIZE then
          (⟨url, invalidMsg, none⟩, [.httpGet url, .wrote name r.bodySize])
        else
          (⟨url, "Descargado como " ++ name, some name⟩,
            [.httpGet url, .wrote name r.bodySize])

/-- `index` for POST requests (pregunta2/app.py, lines 145-207): strip the
form value, reject empty input, then dispatch on `is_platform_url`. -/
def pregunta2_index (rawUrl : String) (env : Env) : ViewResult × List Ev :=
  let url := pyStrip rawUrl
  if url = "" then (⟨url, "Ingresa un URL.", none⟩, [])
  else if is_platform_url url then platformBranch url env
  else directBranch url env

/-! ## The pregunta1 request handler (pregunta1/app.py, lines 8-64) -/

/-- A JSON object with a `name` field, as in `t['type']` / `m['move']`. -/
structure NamedRes where
  name : String
deriving DecidableEq, Repr

/-- One entry of the `types` array: `t['type']['name']`. -/
structure TypeEntry where
  typeRef : NamedRes
deriving DecidableEq, Repr

/-- One entry of the `moves` array: `m['move']['name']`. -/
structure MoveEntry where
  move : NamedRes
deriving DecidableEq, Repr

/-- The `sprites` JSON object, as an association list so that
`sprites.get(key)` can distinguish an absent key (`none`) from a key
present with value `null` (`some none`); both produce Python `None`. -/
def SpritesDict : Type := List (String × Option String)

/-- Python `dict.get(key)`: `None` when the key is absent, the stored
value otherwise. -/
def dictGet (d : SpritesDict) (key : String) : Option String :=
  match d.find? (fun kv => kv.1 = key) with
  | some kv => kv.2
  | none => none

/-- The parsed JSON body of a successful PokeAPI response.  Absent
`types`/`moves` keys are the empty list, matching `data.get(·, [])`. -/
structure PokeJson where
  types : List TypeEntry
  moves : List MoveEntry
  sprites : SpritesDict

/-- Outcome of `requests.get` against PokeAPI: a transport exception or a
response with a status code and (for the 200 case) a JSON body. -/
inductive PokeHttp where
  | netError (e : String)
  | response (status : Nat) (body : PokeJson)

/-- The four sprite URLs the handler extracts (pregunta1/app.py, lines
49-55). -/
structure SpritesOut where
  front_default : Option String
  front_shiny : Option String
  back_default : Option String
  back_shiny : Option String
deriving DecidableEq, Repr

/-- The rendered context of pregunta1's `index`.  `sprites` is `none` for
the initial empty dict and `some` for the extracted four-key dict. -/
structure PokeContext where
  pokemon_name : Option String
  types : List String
  moves : List String
  sprites : Option SpritesOut
  error_message : Option String

/-- The initial context (pregunta1/app.py, lines 15-21). -/
def pokeInit : PokeContext :=
  ⟨none, [], [], none, none⟩

/-- `index` for POST requests (pregunta1/app.py, lines 23-64): strip and
lower-case the form value, reject empty input, query the API (modelled by
`api`, applied to the normalized name), and on HTTP 200 extract the type
names, the first 15 move names and the four sprite URLs. -/
def pregunta1_index (rawName : String) (api : String → PokeHttp) : PokeContext :=
  let nombre := pyLower (pyStrip rawName)
  if nombre = "" then
    { pokeInit with error_message := some "Ingresa un nombre de Pokémon." }
  else
    match api nombre with
    | .netError e =>
      let m := "Error de red consultando PokeAPI: " ++ e
      { pokeInit with error_message := some m }
    | .response status body =>
      if status ≠ 200 then
        let m := "No se encontró el Pokémon '" ++ nombre ++ "' (HTTP "
          ++ toString status ++ ")."
        { pokeInit with error_message := some m }
      else
        { pokemon_name := some nombre
          types := body.types.map (fun t => t.typeRef.name)
          moves := (body.moves.map (fun m => m.move.name)).take 15
          sprites := some
            ⟨dictGet body.sprites "front_default",
             dictGet body.sprites "front_shiny",
             dictGet body.sprites "back_default",
             dictGet body.sprites "back_shiny"⟩
          error_message := none }

/-! ## Concrete environments and bodies used by witnesses and counterexamples -/

/-- Concrete environment used for counterexample and witness evaluation:
the direct fetch fails with a network error, yt-dlp is unavailable, no
file exists. -/
def c5Env : Env :=
  ⟨"/abc", .error "connection refused", ⟨false, .error "na", false, false⟩,
    fun _ => none, none⟩
/-- Dummy yt-dlp environment for the direct-fetch witnesses. -/
def ytOff : YtdlpEnv := ⟨false, .error "na", false, false⟩
/-- Direct-fetch environment: `video/mp4` content type, `.avi` extension,
200000-byte body. -/
def c3Env1 : Env := ⟨"/v/x.avi", .ok ⟨some "video/mp4", 200000⟩, ytOff,
  fun _ => none, none⟩
/-- Direct-fetch environment: `text/html` content type, `.mp4` extension,
200000-byte body. -/
def c3Env2 : Env := ⟨"/v/x.mp4", .ok ⟨some "text/html", 200000⟩, ytOff,
  fun _ => none, none⟩
/-- Direct-fetch environment: `text/html` content type, `.txt` extension. -/
def c3Env3 : Env := ⟨"/v/x.txt", .ok ⟨some "text/html", 200000⟩, ytOff,
  fun _ => none, none⟩
/-- Direct-fetch environment writing a 50 KiB body. -/
def c7Env : Env := ⟨"/v/x.mp4", .ok ⟨some "video/mp4", 51200⟩, ytOff,
  fun _ => none, none⟩
/-- Platform environment whose extraction succeeds and whose produced file
measures 200000 bytes. -/
def c10Env : Env := ⟨"", .error "x", ⟨true, .ok "v.mp4", false, false⟩,
  fun _ => some 200000, none⟩
/-- Concrete PokeAPI body for the C6 witness: one type, twenty moves, two
non-null and two null sprites. -/
def pikachuBody : PokeJson :=
  ⟨[⟨⟨"electric"⟩⟩],
   List.replicate 20 ⟨⟨"tackle"⟩⟩,
   [("front_default", some "a.png"), ("front_shiny", none),
    ("back_default", some "b.png"), ("back_shiny", none)]⟩

/-- Mocked API returning the C6 body for every name. -/
def pikachuApi : String → PokeHttp := fun _ => .response 200 pikachuBody

/-! ## Lemmas about the sanitizer -/

/-- Every character `subRuns` emits is in the allowed class. -/
theorem subRuns_allowed :
    ∀ (l : List Char) (b : Bool), ∀ c ∈ subRuns l b, isAllowedChar c = true
  | [], _ => by intro c hc; cases hc
  | x :: rest, b => by
    intro c hc
    by_cases hx : isAllowedChar x = true
    · simp only [subRuns, hx, if_true, List.mem_cons] at hc
      rcases hc with rfl | hc
      · exact hx
      · exact subRuns_allowed rest false c hc
    · cases b with
      | true =>
        have hu : subRuns (x :: rest) true = subRuns rest true := by
          simp [subRuns, hx]
        rw [hu] at hc
        exact subRuns_allowed rest true c hc
      | false =>
        have hu : subRuns (x :: rest) false = '_' :: subRuns rest true := by
          simp [subRuns, hx]
        rw [hu] at hc
        rcases List.mem_cons.mp hc with rfl | hc
        · decide
        · exact subRuns_allowed rest true c hc

/-- If every character of `l` is allowed, `subRuns` is the identity. -/
theorem subRuns_of_allowed :
    ∀ (l : List Char), (∀ c ∈ l, isAllowedChar c = true) → ∀ b, subRuns l b = l
  | [], _, _ => rfl
  | x :: rest, h, b => by
    have hx : isAllowedChar x = true := h x (List.mem_cons_self x rest)
    simp only [subRuns, hx, if_true]
    exact congrArg (x :: ·)
      (subRuns_of_allowed rest (fun c hc => h c (List.mem_cons_of_mem x hc)) false)

/-- Membership survives `dropWhile` backwards. -/
theorem mem_of_mem_dropWhile {α : Type} (p : α → Bool) :
    ∀ (l : List α) (c : α), c ∈ l.dropWhile p → c ∈ l
  | [], _, h => h
  | x :: rest, c, h => by
    by_cases hx : p x = true
    · rw [List.dropWhile_cons_of_pos hx] at h
      exact List.mem_cons_of_mem x (mem_of_mem_dropWhile p rest c h)
    · rwa [List.dropWhile_cons_of_neg hx] at h

/-- The head surviving `dropWhile p` does not satisfy `p`. -/
theorem head?_dropWhile_not {α : Type} (p : α → Bool) :
    ∀ (l : List α) (c : α), (l.dropWhile p).head? = some c → p c = false
  | [], _, h => by cases h
  | x :: rest, c, h => by
    by_cases hx : p x = true
    · rw [List.dropWhile_cons_of_pos hx] at h
      exact head?_dropWhile_not p rest c h
    · rw [List.dropWhile_cons_of_neg hx] at h
      simp only [List.head?_cons, Option.some.injEq] at h
      subst h
      exact Bool.not_eq_true _ |>.mp hx

/-- Membership in `stripSeps l` implies membership in `l`. -/
theorem mem_of_mem_stripSeps (l : List Char) (c : Char)
    (h : c ∈ stripSeps l) : c ∈ l := by
  simp only [stripSeps, List.rdropWhile, List.mem_reverse] at h
  exact mem_of_mem_dropWhile _ _ _
    (List.mem_reverse.mp (mem_of_mem_dropWhile _ _ _ h))

/-- The head of `stripSeps l` is not a strip character. -/
theorem head?_stripSeps_not (l : List Char) (c : Char)
    (h : (stripSeps l).head? = some c) : isStripChar c = false := by
  obtain ⟨t, ht⟩ := List.rdropWhile_prefix isStripChar (l.dropWhile isStripChar)
  have hd : (l.dropWhile isStripChar).head? = some c := by
    rw [← ht]
    cases hs : stripSeps l with
    | nil => rw [hs] at h; cases h
    | cons x xs =>
      rw [hs] at h
      rw [show (l.dropWhile isStripChar).rdropWhile isStripChar = x :: xs from hs]
      simpa using h
  exact head?_dropWhile_not _ _ _ hd

/-- The last character of `stripSeps l` is not a strip character. -/
theorem getLast?_stripSeps_not (l : List Char) (c : Char)
    (h : (stripSeps l).getLast? = some c) : isStripChar c = false := by
  simp only [stripSeps, List.rdropWhile] at h
  rw [List.getLast?_reverse] at h
  exact head?_dropWhile_not _ _ _ h

/-- `stripSeps` fixes a list whose first and last characters are not strip
characters. -/
theorem stripSeps_of_clean (l : List Char)
    (hh : ∀ c, l.head? = some c → isStripChar c = false)
    (hl : ∀ c, l.getLast? = some c → isStripChar c = false) :
    stripSeps l = l := by
  have h1 : l.dropWhile isStripChar = l := by
    cases l with
    | nil => rfl
    | cons x xs =>
      have := hh x rfl
      simp [List.dropWhile_cons, this]
  rw [stripSeps, h1]
  rcases hn : l with _ | ⟨x, xs⟩
  · rfl
  · rw [← hn]
    apply List.rdropWhile_eq_self_iff.mpr
    intro hne
    have := hl (l.getLast hne) (List.getLast?_eq_getLast_of_ne_nil hne)
    simp [this]

/-- Rebuilding a string from its character data. -/
theorem mk_data_eq : ∀ s : String, String.mk s.data = s
  | ⟨_⟩ => rfl

/-- `sanitize_name` fixes any nonempty string of allowed characters whose
ends are not strip characters. -/
theorem sanitize_name_fixed (l : List Char) (hne : l ≠ [])
    (hall : ∀ c ∈ l, isAllowedChar c = true)
    (hh : ∀ c, l.head? = some c → isStripChar c = false)
    (hl : ∀ c, l.getLast? = some c → isStripChar c = false) :
    sanitize_name (String.mk l) = String.mk l := by
  have hdata : (String.mk l).data = l := rfl
  rw [sanitize_name]
  rw [hdata, subRuns_of_allowed l hall false, stripSeps_of_clean l hh hl]
  have hns : ¬ String.mk l = "" := fun hc => hne (congrArg String.data hc)
  simp [hns]

/-- Every character of a sanitized name is in the allowed class. -/
theorem sanitize_allowed (x : String) :
    ∀ c ∈ (sanitize_name x).data, isAllowedChar c = true := by
  intro c hc
  simp only [sanitize_name] at hc
  by_cases hempty : String.mk (stripSeps (subRuns x.data false)) = ""
  · rw [if_pos hempty] at hc
    exact (by decide : ∀ c ∈ ("archivo.mp4" : String).data, isAllowedChar c = true)
      c hc
  · rw [if_neg hempty] at hc
    exact subRuns_allowed _ _ c (mem_of_mem_stripSeps _ _ hc)

/-- A sanitized name is never the empty string. -/
theorem sanitize_ne_empty (x : String) : sanitize_name x ≠ "" := by
  simp only [sanitize_name]
  by_cases hempty : String.mk (stripSeps (subRuns x.data false)) = ""
  · rw [if_pos hempty]; decide
  · rw [if_neg hempty]; exact hempty

/-- A sanitized name never starts with `.`, `_` or `-`. -/
theorem sanitize_head_not_strip (x : String) :
    ∀ c, (sanitize_name x).data.head? = some c → isStripChar c = false := by
  intro c hc
  simp only [sanitize_name] at hc
  by_cases hempty : String.mk (stripSeps (subRuns x.data false)) = ""
  · rw [if_pos hempty] at hc
    have : c = 'a' := by
      have : ("archivo.mp4" : String).data.head? = some 'a' := by decide
      rw [this] at hc
      exact (Option.some.injEq _ _ ▸ hc).symm
    subst this; decide
  · rw [if_neg hempty] at hc
    exact head?_stripSeps_not _ _ hc

/-- A sanitized name never ends with `.`, `_` or `-`. -/
theorem sanitize_last_not_strip (x : String) :
    ∀ c, (sanitize_name x).data.getLast? = some c → isStripChar c = false := by
  intro c hc
  simp only [sanitize_name] at hc
  by_cases hempty : String.mk (stripSeps (subRuns x.data false)) = ""
  · rw [if_pos hempty] at hc
    have : c = '4' := by
      have : ("archivo.mp4" : String).data.getLast? = some '4' := by decide
      rw [this] at hc
      exact (Option.some.injEq _ _ ▸ hc).symm
    subst this; decide
  · rw [if_neg hempty] at hc
    exact getLast?_stripSeps_not _ _ hc

/-- `subRuns` computes the spec's replace-each-maximal-run transform: with
a clean flag it is `replaceRuns`, and with the flag set it first skips the
remainder of the current disallowed run. -/
theorem subRuns_eq_replaceRuns :
    ∀ l : List Char,
      subRuns l false = replaceRuns l ∧
      subRuns l true = replaceRuns (l.dropWhile (fun c => ! isAllowedChar c))
  | [] => by constructor <;> simp [subRuns, replaceRuns]
  | x :: rest => by
    have ih := subRuns_eq_replaceRuns rest
    by_cases hx : isAllowedChar x = true
    · have hdrop : (x :: rest).dropWhile (fun c => ! isAllowedChar c) = x :: rest :=
        List.dropWhile_cons_of_neg (by simp [hx])
      have hrep : replaceRuns (x :: rest) = x :: replaceRuns rest := by
        simp [replaceRuns, hx]
      constructor
      · simp only [subRuns, hx, if_true, hrep]
        exact congrArg (x :: ·) ih.1
      · rw [hdrop, hrep]
        simp only [subRuns, hx, if_true]
        exact congrArg (x :: ·) ih.1
    · have hdrop : (x :: rest).dropWhile (fun c => ! isAllowedChar c)
          = rest.dropWhile (fun c => ! isAllowedChar c) :=
        List.dropWhile_cons_of_pos (by simp [hx])
      have hrep : replaceRuns (x :: rest)
          = '_' :: replaceRuns (rest.dropWhile (fun c => ! isAllowedChar c)) := by
        simp [replaceRuns, hx]
      constructor
      · have hu : subRuns (x :: rest) false = '_' :: subRuns rest true := by
          simp [subRuns, hx]
        rw [hu, hrep]
        exact congrArg ('_' :: ·) ih.2
      · have hu : subRuns (x :: rest) true = subRuns rest true := by
          simp [subRuns, hx]
        rw [hu, hdrop]
        exact ih.2

/-- The embedded sanitizer agrees with the spec's description of it. -/
theorem sanitize_eq_sanitizeSpec (name : String) :
    sanitize_name name = sanitizeSpec name := by
  rw [sanitize_name, sanitizeSpec, (subRuns_eq_replaceRuns name.data).1]

/-- C1: for every input string, `sanitize_name` returns a string that
contains only characters from `[A-Za-z0-9._-]`, is never empty, has no
leading or trailing `.`, `_` or `-`, and is computed by replacing every
maximal run of characters outside that class with a single underscore,
stripping leading/trailing `.`, `_`, `-`, and returning the fixed default
`archivo.mp4` when the result is empty. -/
theorem claim_C1_sanitizer_output (name : String) :
    (∀ c ∈ (sanitize_name name).data, isAllowedChar c = true) ∧
    sanitize_name name ≠ "" ∧
    (∀ c, (sanitize_name name).data.head? = some c → isStripChar c = false) ∧
    (∀ c, (sanitize_name name).data.getLast? = some c → isStripChar c = false) ∧
    sanitize_name name = sanitizeSpec name :=
  ⟨sanitize_allowed name, sanitize_ne_empty name, sanitize_head_not_strip name,
    sanitize_last_not_strip name, sanitize_eq_sanitizeSpec name⟩

/-- C1 witness: the C1 theorem applied at the concrete input
`"héllo wörld.mp4"`, whose sanitized form is `"h_llo_w_rld.mp4"`. -/
theorem claim_C1_sanitizer_output_witness :
    isAllowedChar 'h' = true ∧ sanitize_name "héllo wörld.mp4" ≠ "" ∧
    isStripChar 'h' = false ∧ isStripChar '4' = false ∧
    sanitize_name "héllo wörld.mp4" = sanitizeSpec "héllo wörld.mp4" := by
  have h := claim_C1_sanitizer_output "héllo wörld.mp4"
  exact ⟨h.1 'h' (by decide), h.2.1, h.2.2.1 'h' (by decide),
    h.2.2.2.1 '4' (by decide), h.2.2.2.2⟩

/-- C4: the filename sanitizer is idempotent. -/
theorem claim_C4_sanitizer_idempotent (x : String) :
    sanitize_name (sanitize_name x) = sanitize_name x := by
  have hne : (sanitize_name x).data ≠ [] := by
    intro hd
    apply sanitize_ne_empty x
    rw [← mk_data_eq (sanitize_name x), hd]
  have h := sanitize_name_fixed (sanitize_name x).data hne (sanitize_allowed x)
    (sanitize_head_not_strip x) (sanitize_last_not_strip x)
  rwa [mk_data_eq] at h

/-- C2: the classifier returns `PlatformMedia` iff the URL contains one of
the four platform domains as a substring, and `DirectFile` otherwise; it
is total and does no URL parsing, only substring matching. -/
theorem claim_C2_classifier (url : String) :
    (classify url = .PlatformMedia ↔
      ("instagram.com".data <:+: url.data ∨ "youtu.be".data <:+: url.data ∨
        "youtube.com".data <:+: url.data ∨ "tiktok.com".data <:+: url.data)) ∧
    (classify url = .DirectFile ↔
      ¬ ("instagram.com".data <:+: url.data ∨ "youtu.be".data <:+: url.data ∨
        "youtube.com".data <:+: url.data ∨ "tiktok.com".data <:+: url.data)) := by
  have h : is_platform_url url = true ↔
      ("instagram.com".data <:+: url.data ∨ "youtu.be".data <:+: url.data ∨
        "youtube.com".data <:+: url.data ∨ "tiktok.com".data <:+: url.data) := by
    simp only [is_platform_url, strContains, List.any_eq_true, List.mem_cons,
      List.mem_singleton, decide_eq_true_eq]
    constructor
    · rintro ⟨d, hd, hsub⟩
      rcases hd with rfl | rfl | rfl | rfl | h0
      · exact Or.inl hsub
      · exact Or.inr (Or.inl hsub)
      · exact Or.inr (Or.inr (Or.inl hsub))
      · exact Or.inr (Or.inr (Or.inr hsub))
      · cases h0
    · rintro (hsub | hsub | hsub | hsub)
      · exact ⟨_, Or.inl rfl, hsub⟩
      · exact ⟨_, Or.inr (Or.inl rfl), hsub⟩
      · exact ⟨_, Or.inr (Or.inr (Or.inl rfl)), hsub⟩
      · exact ⟨_, Or.inr (Or.inr (Or.inr (Or.inl rfl))), hsub⟩
  by_cases hp : is_platform_url url = true
  · rw [classify, if_pos hp]
    refine ⟨⟨fun _ => h.mp hp, fun _ => rfl⟩, ⟨fun hc => ?_, fun hnd => ?_⟩⟩
    · cases hc
    · exact absurd (h.mp hp) hnd
  · rw [classify, if_neg hp]
    refine ⟨⟨fun hc => ?_, fun hd => ?_⟩, ⟨fun _ hd => hp (h.mpr hd), fun _ => rfl⟩⟩
    · cases hc
    · exact absurd (h.mpr hd) hp

/-! ## Shape lemmas for the pregunta2 handler -/

/-- The only events `download_with_ytdlp` emits are renames. -/
theorem download_with_ytdlp_evs (env : YtdlpEnv) (res : String × List Ev)
    (h : download_with_ytdlp env = .ok res) :
    ∀ e ∈ res.2, ∃ s d, e = Ev.renamed s d := by
  rw [download_with_ytdlp] at h
  by_cases ha : env.available = false
  · rw [if_pos ha] at h; cases h
  · rw [if_neg ha] at h
    rcases hex : env.extract with er | orig
    · rw [hex] at h; cases h
    · rw [hex] at h
      dsimp only at h
      by_cases hdiff : sanitize_name orig ≠ orig
      · rw [if_pos hdiff] at h
        by_cases hsrc : env.srcExists = true
        · rw [if_pos hsrc] at h
          by_cases hren : env.renameOk = true
          · rw [if_pos hren] at h
            cases h
            intro e he
            rcases List.mem_singleton.mp he with rfl
            exact ⟨_, _, rfl⟩
          · rw [if_neg hren] at h
            cases h
            intro e he
            cases he
        · rw [if_neg hsrc] at h
          cases h
          intro e he
          cases he
      · rw [if_neg hdiff] at h
        cases h
        intro e he
        cases he

/-- The view the platform branch renders echoes the classified URL. -/
theorem platformBranch_url (url : String) (env : Env) :
    (platformBranch url env).1.url = url := by
  rw [platformBranch]
  split
  · rfl
  · split
    · split <;> rfl
    · rfl

/-- Every event of the platform branch is the yt-dlp call on the
classified URL or a rename. -/
theorem platformBranch_trace (url : String) (env : Env) :
    ∀ e ∈ (platformBranch url env).2,
      e = Ev.ytdlpCall url ∨ ∃ s d, e = Ev.renamed s d := by
  intro e he
  rw [platformBranch] at he
  rcases hok : download_with_ytdlp env.yt with er | res
  · rw [hok] at he
    dsimp only at he
    rcases List.mem_singleton.mp he with rfl
    exact Or.inl rfl
  · obtain ⟨saved, evs⟩ := res
    rw [hok] at he
    dsimp only at he
    have hcons : e ∈ Ev.ytdlpCall url :: evs := by
      rcases hps : env.postSize saved with _ | n
      · rw [hps] at he
        exact he
      · rw [hps] at he
        dsimp only at he
        by_cases hn : MIN_SIZE ≤ n
        · rwa [if_pos hn] at he
        · rwa [if_neg hn] at he
    rcases List.mem_cons.mp hcons with rfl | hmem
    · exact Or.inl rfl
    · exact Or.inr (download_with_ytdlp_evs env.yt (saved, evs) hok e hmem)

/-- The view the direct branch renders echoes the classified URL. -/
theorem directBranch_url (url : String) (env : Env) :
    (directBranch url env).1.url = url := by
  rw [directBranch]
  split
  · rfl
  · split
    · rfl
    · split
      · rfl
      · split <;> rfl

/-- Every event of the direct branch is the HTTP GET on the classified URL
or the write of the downloaded body. -/
theorem directBranch_trace (url : String) (env : Env) :
    ∀ e ∈ (directBranch url env).2,
      e = Ev.httpGet url ∨ ∃ n s, e = Ev.wrote n s := by
  intro e he
  rw [directBranch] at he
  split at he
  · rcases List.mem_singleton.mp he with rfl
    exact Or.inl rfl
  · split at he
    · rcases List.mem_singleton.mp he with rfl
      exact Or.inl rfl
    · split at he
      · rcases List.mem_singleton.mp he with rfl
        exact Or.inl rfl
      · split at he <;>
          (rcases List.mem_cons.mp he with rfl | hmem
           · exact Or.inl rfl
           · rcases List.mem_singleton.mp hmem with rfl
             exact Or.inr ⟨_, _, rfl⟩)


/-- C5 counterexample: the second application does not lower-case the
URL.  For the input `"YOUTU.BE/abc"` the handler performs the direct HTTP
GET with the original upper-case text, although the trimmed-and-lower-cased
text would have been classified as a platform URL — so the text reaching
the classifier and acquirer was trimmed but not lower-cased. -/
theorem claim_C5_counterexample :
    (pregunta2_index "YOUTU.BE/abc" c5Env).2 = [Ev.httpGet "YOUTU.BE/abc"] ∧
    pyLower (pyStrip "YOUTU.BE/abc") = "youtu.be/abc" ∧
    is_platform_url "youtu.be/abc" = true ∧
    is_platform_url "YOUTU.BE/abc" = false := by
  refine ⟨?_, ?_, ?_, ?_⟩ <;> decide

/-- C5 (amended): both handlers strip the user-supplied text before it
reaches the classifier or acquirer; the creature name in the first
application is additionally lower-cased, while the URL in the second
application is stripped but not lower-cased. -/
theorem claim_C5_normalization (raw : String) (api : String → PokeHttp)
    (env : Env) :
    ((pregunta1_index raw api).pokemon_name = none ∨
      (pregunta1_index raw api).pokemon_name = some (pyLower (pyStrip raw))) ∧
    (pregunta2_index raw env).1.url = pyStrip raw ∧
    (∀ u, Ev.httpGet u ∈ (pregunta2_index raw env).2 → u = pyStrip raw) ∧
    (∀ u, Ev.ytdlpCall u ∈ (pregunta2_index raw env).2 → u = pyStrip raw) := by
  refine ⟨?_, ?_, ?_, ?_⟩
  · rw [pregunta1_index]
    dsimp only
    by_cases h0 : pyLower (pyStrip raw) = ""
    · rw [if_pos h0]
      exact Or.inl rfl
    · rw [if_neg h0]
      rcases hapi : api (pyLower (pyStrip raw)) with er | ⟨st, body⟩
      · exact Or.inl rfl
      · dsimp only
        by_cases hst : st ≠ 200
        · rw [if_pos hst]
          exact Or.inl rfl
        · rw [if_neg hst]
          exact Or.inr rfl
  · rw [pregunta2_index]
    by_cases h0 : pyStrip raw = ""
    · rw [if_pos h0]
    · rw [if_neg h0]
      by_cases hp : is_platform_url (pyStrip raw) = true
      · rw [if_pos hp]
        exact platformBranch_url _ _
      · rw [if_neg hp]
        exact directBranch_url _ _
  · intro u hu
    rw [pregunta2_index] at hu
    by_cases h0 : pyStrip raw = ""
    · rw [if_pos h0] at hu
      cases hu
    · rw [if_neg h0] at hu
      by_cases hp : is_platform_url (pyStrip raw) = true
      · rw [if_pos hp] at hu
        rcases platformBranch_trace _ _ _ hu with h | ⟨s, d, h⟩ <;> cases h
      · rw [if_neg hp] at hu
        rcases directBranch_trace _ _ _ hu with h | ⟨n, sz, h⟩
        · injection h
        · cases h
  · intro u hu
    rw [pregunta2_index] at hu
    by_cases h0 : pyStrip raw = ""
    · rw [if_pos h0] at hu
      cases hu
    · rw [if_neg h0] at hu
      by_cases hp : is_platform_url (pyStrip raw) = true
      · rw [if_pos hp] at hu
        rcases platformBranch_trace _ _ _ hu with h | ⟨s, d, h⟩
        · injection h
        · cases h
      · rw [if_neg hp] at hu
        rcases directBranch_trace _ _ _ hu with h | ⟨n, sz, h⟩ <;> cases h

/-- C5 witness: the amended theorem applied at the concrete input
`"YOUTU.BE/abc"` with the concrete environment `c5Env`. -/
theorem claim_C5_normalization_witness :
    "YOUTU.BE/abc" = pyStrip "YOUTU.BE/abc" ∧
    (pregunta2_index "YOUTU.BE/abc" c5Env).1.url = pyStrip "YOUTU.BE/abc" := by
  have h := claim_C5_normalization "YOUTU.BE/abc"
    (fun _ => PokeHttp.netError "x") c5Env
  exact ⟨h.2.2.1 "YOUTU.BE/abc" (by decide), h.2.1⟩

/-- C9: in the platform acquirer, when the sanitized filename differs from
the extracted one and the source file exists, a successful rename returns
the sanitized name; a failed rename returns the original name and the
operation still succeeds; when the names agree or the source file is
absent, the original name is returned with no rename attempted. -/
theorem claim_C9_rename_fallback (env : YtdlpEnv) (orig : String)
    (havail : env.available = true) (hex : env.extract = .ok orig) :
    (sanitize_name orig ≠ orig → env.srcExists = true → env.renameOk = true →
      download_with_ytdlp env =
        .ok (sanitize_name orig, [Ev.renamed orig (sanitize_name orig)])) ∧
    (sanitize_name orig ≠ orig → env.srcExists = true → env.renameOk = false →
      download_with_ytdlp env = .ok (orig, [])) ∧
    (sanitize_name orig = orig ∨ env.srcExists = false →
      download_with_ytdlp env = .ok (orig, [])) := by
  have hna : ¬ env.available = false := by simp [havail]
  refine ⟨?_, ?_, ?_⟩
  · intro hd hs hr
    rw [download_with_ytdlp, if_neg hna, hex]
    dsimp only
    rw [if_pos hd, if_pos hs, if_pos hr]
  · intro hd hs hr
    rw [download_with_ytdlp, if_neg hna, hex]
    dsimp only
    rw [if_pos hd, if_pos hs, if_neg (by simp [hr])]
  · intro hcase
    rw [download_with_ytdlp, if_neg hna, hex]
    dsimp only
    rcases hcase with hd | hs
    · rw [if_neg (fun hc => hc hd)]
    · by_cases hd : sanitize_name orig ≠ orig
      · rw [if_pos hd, if_neg (by simp [hs])]
      · rw [if_neg hd]

/-- C9 witness: the rename logic exercised on concrete environments for
all three cases. -/
theorem claim_C9_rename_fallback_witness :
    download_with_ytdlp ⟨true, .ok "a b.mp4", true, true⟩ =
      .ok ("a_b.mp4", [Ev.renamed "a b.mp4" "a_b.mp4"]) ∧
    download_with_ytdlp ⟨true, .ok "a b.mp4", true, false⟩ =
      .ok ("a b.mp4", []) ∧
    download_with_ytdlp ⟨true, .ok "ab.mp4", true, true⟩ =
      .ok ("ab.mp4", []) := by
  refine ⟨?_, ?_, ?_⟩
  · have h := (claim_C9_rename_fallback ⟨true, .ok "a b.mp4", true, true⟩
      "a b.mp4" rfl rfl).1 (by decide) rfl rfl
    rwa [show sanitize_name "a b.mp4" = "a_b.mp4" from by decide] at h
  · exact (claim_C9_rename_fallback ⟨true, .ok "a b.mp4", true, false⟩
      "a b.mp4" rfl rfl).2.1 (by decide) rfl rfl
  · exact (claim_C9_rename_fallback ⟨true, .ok "ab.mp4", true, true⟩
      "ab.mp4" rfl rfl).2.2 (Or.inl (by decide))

/-- C8: when the platform extraction routine raises, the handler catches
the exception, reports `No se pudo descargar con yt-dlp` together with the
underlying message, and leaves `saved` as `None`; the handler is a total
function, so the exception never propagates. -/
theorem claim_C8_extraction_error (raw : String) (env : Env) (e : String)
    (hne : pyStrip raw ≠ "") (hplat : is_platform_url (pyStrip raw) = true)
    (herr : download_with_ytdlp env.yt = .error e) :
    pregunta2_index raw env =
      (⟨pyStrip raw, "No se pudo descargar con yt-dlp: " ++ e, none⟩,
        [Ev.ytdlpCall (pyStrip raw)]) ∧
    "No se pudo descargar con yt-dlp".data
      <:+: ("No se pudo descargar con yt-dlp: " ++ e).data ∧
    e.data <:+: ("No se pudo descargar con yt-dlp: " ++ e).data := by
  refine ⟨?_, ?_, ?_⟩
  · rw [pregunta2_index]
    rw [if_neg hne, if_pos hplat, platformBranch, herr]
  · have hlit : "No se pudo descargar con yt-dlp".data ++ ": ".data
        = "No se pudo descargar con yt-dlp: ".data := by decide
    refine ⟨[], ": ".data ++ e.data, ?_⟩
    rw [List.nil_append, ← List.append_assoc, hlit, ← String.data_append]
  · refine ⟨"No se pudo descargar con yt-dlp: ".data, [], ?_⟩
    rw [List.append_nil, ← String.data_append]

/-- C8 witness: a platform URL whose extraction raises (yt-dlp missing in
the environment) produces the extraction-error message and no saved
file. -/
theorem claim_C8_extraction_error_witness :
    pregunta2_index "https://youtube.com/watch?v=x" c5Env =
      (⟨"https://youtube.com/watch?v=x",
        "No se pudo descargar con yt-dlp: yt-dlp no está disponible en el entorno.",
        none⟩,
       [Ev.ytdlpCall "https://youtube.com/watch?v=x"]) := by
  have h := claim_C8_extraction_error "https://youtube.com/watch?v=x" c5Env
    "yt-dlp no está disponible en el entorno." (by decide) (by decide) rfl
  rw [h.1]
  refine congrArg (Prod.mk _) ?_
  rw [show pyStrip "https://youtube.com/watch?v=x"
      = "https://youtube.com/watch?v=x" from by decide]

/-- A non-`None` `saved` in the platform branch certifies that the checked
file existed with at least `MIN_SIZE` bytes. -/
theorem platformBranch_saved (url : String) (env : Env) (s : String)
    (hs : (platformBranch url env).1.saved = some s) :
    ∃ n, env.postSize s = some n ∧ MIN_SIZE ≤ n := by
  rw [platformBranch] at hs
  rcases hok : download_with_ytdlp env.yt with er | ⟨saved, evs⟩
  · rw [hok] at hs
    cases hs
  · rw [hok] at hs
    dsimp only at hs
    rcases hps : env.postSize saved with _ | n
    · rw [hps] at hs
      cases hs
    · rw [hps] at hs
      dsimp only at hs
      by_cases hn : MIN_SIZE ≤ n
      · rw [if_pos hn] at hs
        have hse : saved = s := Option.some.inj hs
        exact ⟨n, hse ▸ hps, hn⟩
      · rw [if_neg hn] at hs
        cases hs

/-- A non-`None` `saved` in the direct branch certifies that the handler
wrote that file with at least `MIN_SIZE` bytes. -/
theorem directBranch_saved (url : String) (env : Env) (s : String)
    (hs : (directBranch url env).1.saved = some s) :
    ∃ n, Ev.wrote s n ∈ (directBranch url env).2 ∧ MIN_SIZE ≤ n := by
  obtain ⟨path, fetch, yt, ps, we⟩ := env
  rw [directBranch] at hs ⊢
  rcases fetch with er | r
  · cases hs
  · dsimp only at hs ⊢
    by_cases hacc : directAccept r.contentType path = false
    · rw [if_pos hacc] at hs
      cases hs
    · rw [if_neg hacc] at hs ⊢
      rcases we with _ | e
      · dsimp only at hs ⊢
        by_cases hsize : r.bodySize < MIN_SIZE
        · rw [if_pos hsize] at hs
          cases hs
        · rw [if_neg hsize] at hs ⊢
          have hse : directName path = s := Option.some.inj hs
          refine ⟨r.bodySize, ?_, Nat.le_of_not_lt hsize⟩
          rw [← hse]
          simp
      · cases hs

/-- C3: for every direct fetch, the download is accepted iff the
lower-cased declared content-type begins with `video/` or the lower-cased
URL-path extension is in the four-entry allow-list; a rejected request
renders the content-mismatch message with no file written, and an accepted
request (with a working filesystem) writes the response body. -/
theorem claim_C3_direct_acceptance (raw : String) (env : Env) (r : DirectResp)
    (hne : pyStrip raw ≠ "") (hplat : is_platform_url (pyStrip raw) = false)
    (hfetch : env.fetch = .ok r) :
    (directAccept r.contentType env.urlPath =
      (pyStartsWith (pyLower (r.contentType.getD "")) "video/"
        || videoExts.contains (pyLower (splitextExt (basenameStr env.urlPath))))) ∧
    (directAccept r.contentType env.urlPath = false →
      pregunta2_index raw env =
        (⟨pyStrip raw,
          "El URL no parece ser un archivo de video directo (Content-Type: "
            ++ pyLower (r.contentType.getD "") ++ ").", none⟩,
         [Ev.httpGet (pyStrip raw)])) ∧
    (directAccept r.contentType env.urlPath = true → env.writeErr = none →
      Ev.wrote (directName env.urlPath) r.bodySize
        ∈ (pregunta2_index raw env).2) := by
  have hred : pregunta2_index raw env = directBranch (pyStrip raw) env := by
    rw [pregunta2_index, if_neg hne, if_neg (by simp [hplat])]
  refine ⟨rfl, ?_, ?_⟩
  · intro hrej
    rw [hred, directBranch, hfetch]
    dsimp only
    rw [if_pos hrej]
  · intro hacc hw
    rw [hred, directBranch, hfetch]
    dsimp only
    rw [if_neg (by simp [hacc]), hw]
    dsimp only
    by_cases hsize : r.bodySize < MIN_SIZE
    · rw [if_pos hsize]
      simp
    · rw [if_neg hsize]
      simp


/-- C3 witness: `video/mp4` with a non-video extension is accepted and
written; `text/html` with extension `.mp4` is accepted and written;
`text/html` with extension `.txt` is rejected with the content-mismatch
message and an empty filesystem trace. -/
theorem claim_C3_direct_acceptance_witness :
    Ev.wrote "x.avi" 200000 ∈ (pregunta2_index "http://e.com/v/x.avi" c3Env1).2 ∧
    Ev.wrote "x.mp4" 200000 ∈ (pregunta2_index "http://e.com/v/x.mp4" c3Env2).2 ∧
    (pregunta2_index "http://e.com/v/x.txt" c3Env3).2
      = [Ev.httpGet "http://e.com/v/x.txt"] := by
  refine ⟨?_, ?_, ?_⟩
  · have h := (claim_C3_direct_acceptance "http://e.com/v/x.avi" c3Env1
      ⟨some "video/mp4", 200000⟩ (by decide) (by decide) rfl).2.2 (by decide) rfl
    exact h
  · have h := (claim_C3_direct_acceptance "http://e.com/v/x.mp4" c3Env2
      ⟨some "text/html", 200000⟩ (by decide) (by decide) rfl).2.2 (by decide) rfl
    exact h
  · have h := (claim_C3_direct_acceptance "http://e.com/v/x.txt" c3Env3
      ⟨some "text/html", 200000⟩ (by decide) (by decide) rfl).2.1 (by decide)
    rw [h]
    decide

/-- C7: when the direct branch writes a file smaller than `MIN_SIZE`, the
handler reports the invalid-download message, leaves `saved` as `None`,
and the undersized file stays in the trace with no deletion event. -/
theorem claim_C7_undersized_direct (raw : String) (env : Env) (r : DirectResp)
    (hne : pyStrip raw ≠ "") (hplat : is_platform_url (pyStrip raw) = false)
    (hfetch : env.fetch = .ok r)
    (hacc : directAccept r.contentType env.urlPath = true)
    (hw : env.writeErr = none) (hsmall : r.bodySize < MIN_SIZE) :
    pregunta2_index raw env =
      (⟨pyStrip raw, invalidMsg, none⟩,
        [Ev.httpGet (pyStrip raw),
         Ev.wrote (directName env.urlPath) r.bodySize]) ∧
    (∀ n, Ev.deleted n ∉ (pregunta2_index raw env).2) := by
  have heq : pregunta2_index raw env =
      (⟨pyStrip raw, invalidMsg, none⟩,
        [Ev.httpGet (pyStrip raw),
         Ev.wrote (directName env.urlPath) r.bodySize]) := by
    rw [pregunta2_index, if_neg hne, if_neg (by simp [hplat]),
      directBranch, hfetch]
    dsimp only
    rw [if_neg (by simp [hacc]), hw]
    dsimp only
    rw [if_pos hsmall]
  refine ⟨heq, ?_⟩
  intro n hmem
  rw [heq] at hmem
  simp at hmem


/-- C7 witness: a 50 KiB direct download reports the invalid-download
message, keeps `saved = None`, and the 50 KiB write stays in the trace. -/
theorem claim_C7_undersized_direct_witness :
    pregunta2_index "http://e.com/v/x.mp4" c7Env =
      (⟨"http://e.com/v/x.mp4", invalidMsg, none⟩,
        [Ev.httpGet "http://e.com/v/x.mp4", Ev.wrote "x.mp4" 51200]) := by
  have h := (claim_C7_undersized_direct "http://e.com/v/x.mp4" c7Env
    ⟨some "video/mp4", 51200⟩ (by decide) (by decide) rfl (by decide) rfl
    (by decide)).1
  rw [h]
  decide

/-- C10: whenever a request ends with a non-`None` `saved` field, either
the platform branch checked that the file existed with at least
`MIN_SIZE` bytes, or the direct branch itself wrote that file with at
least `MIN_SIZE` bytes. -/
theorem claim_C10_saved_invariant (raw : String) (env : Env) (s : String)
    (hs : (pregunta2_index raw env).1.saved = some s) :
    (∃ n, env.postSize s = some n ∧ MIN_SIZE ≤ n) ∨
    (∃ n, Ev.wrote s n ∈ (pregunta2_index raw env).2 ∧ MIN_SIZE ≤ n) := by
  rw [pregunta2_index] at hs ⊢
  by_cases h0 : pyStrip raw = ""
  · rw [if_pos h0] at hs
    cases hs
  · rw [if_neg h0] at hs ⊢
    by_cases hp : is_platform_url (pyStrip raw) = true
    · rw [if_pos hp] at hs ⊢
      exact Or.inl (platformBranch_saved _ _ _ hs)
    · rw [if_neg hp] at hs ⊢
      exact Or.inr (directBranch_saved _ _ _ hs)


/-- C10 witness: the invariant applied to a successful platform download
that saved `v.mp4`. -/
theorem claim_C10_saved_invariant_witness :
    (∃ n, c10Env.postSize "v.mp4" = some n ∧ MIN_SIZE ≤ n) ∨
    (∃ n, Ev.wrote "v.mp4" n ∈ (pregunta2_index "youtube.com/w" c10Env).2 ∧
      MIN_SIZE ≤ n) :=
  claim_C10_saved_invariant "youtube.com/w" c10Env "v.mp4" (by decide)

/-- C6: on an HTTP 200 creature-lookup response the handler extracts the
list of all type names, the first 15 move names in API order (all of them
when fewer than 15), and the four sprite URLs passed through unchanged,
with no error message. -/
theorem claim_C6_poke_extraction (raw : String) (api : String → PokeHttp)
    (body : PokeJson) (hne : pyLower (pyStrip raw) ≠ "")
    (hapi : api (pyLower (pyStrip raw)) = .response 200 body) :
    (pregunta1_index raw api).types
      = body.types.map (fun t => t.typeRef.name) ∧
    (pregunta1_index raw api).moves
      = (body.moves.map (fun m => m.move.name)).take 15 ∧
    (body.moves.length ≤ 15 →
      (pregunta1_index raw api).moves
        = body.moves.map (fun m => m.move.name)) ∧
    (pregunta1_index raw api).moves.length = min 15 body.moves.length ∧
    (pregunta1_index raw api).sprites = some
      ⟨dictGet body.sprites "front_default", dictGet body.sprites "front_shiny",
       dictGet body.sprites "back_default", dictGet body.sprites "back_shiny"⟩ ∧
    (pregunta1_index raw api).error_message = none := by
  have hctx : pregunta1_index raw api =
      { pokemon_name := some (pyLower (pyStrip raw))
        types := body.types.map (fun t => t.typeRef.name)
        moves := (body.moves.map (fun m => m.move.name)).take 15
        sprites := some
          ⟨dictGet body.sprites "front_default",
           dictGet body.sprites "front_shiny",
           dictGet body.sprites "back_default",
           dictGet body.sprites "back_shiny"⟩
        error_message := none } := by
    rw [pregunta1_index]
    dsimp only
    rw [if_neg hne, hapi]
    dsimp only
    rw [if_neg (by simp)]
  rw [hctx]
  refine ⟨rfl, rfl, ?_, ?_, rfl, rfl⟩
  · intro hlen
    exact List.take_of_length_le (by simpa using hlen)
  · simp [List.length_take]


/-- C6 witness: posting ` Pikachu ` against the mocked API yields
`types = [electric]`, exactly 15 moves, and `front_shiny = None`. -/
theorem claim_C6_poke_extraction_witness :
    (pregunta1_index " Pikachu " pikachuApi).types = ["electric"] ∧
    (pregunta1_index " Pikachu " pikachuApi).moves.length = 15 ∧
    (pregunta1_index " Pikachu " pikachuApi).sprites = some
      ⟨some "a.png", none, some "b.png", none⟩ := by
  have h := claim_C6_poke_extraction " Pikachu " pikachuApi pikachuBody
    (by decide) rfl
  refine ⟨?_, ?_, ?_⟩
  · rw [h.1]
    decide
  · rw [h.2.2.2.1]
    decide
  · rw [h.2.2.2.2.1]
    decide

example : sanitize_name "héllo wörld.mp4" = "h_llo_w_rld.mp4" := by decide
example : sanitize_name "" = "archivo.mp4" := by decide
example : sanitize_name "..__--" = "archivo.mp4" := by decide
example : sanitize_name "_a b_" = "a_b" := by decide
example : is_platform_url "https://youtu.be/x" = true := by decide
example : is_platform_url "https://example.com/v.mp4" = false := by decide

end Lab6
